import Mathlib

/-!
Verification of the float-view-renderer rendering pipeline.

Embedding conventions:
* Rust `f64`/`f32` arithmetic is modelled exactly over `ℚ`.  Every constant
  appearing in the source is representable exactly (`PI64` below is the exact
  rational value of the `f64` constant `std::f64::consts::PI`), and every
  operation the verified claims exercise is exact in IEEE arithmetic at the
  inputs considered.
* Where the source can produce IEEE special values (division by zero in
  `Speedo::render`), values are modelled by `F64`, a rational carrier extended
  with `nan`, `inf` and `ninf`, with the IEEE propagation rules for the
  operations the source uses.  `cos`/`sin` on finite values are taken as an
  arbitrary parameter `(c s : ℚ → ℚ)`: the claims about them only concern NaN
  propagation, which is independent of the finite values.
* SDL drawing calls (`canvas.arc`, `thick_line`, `filled_trigon`, texture
  copies) can only fail with an SDL runtime error; no branch of the source
  inspects the gauge span or any geometric value to decide failure.  They are
  therefore modelled as succeeding, and `speedo_render` returns the geometry
  it computes.
-/

/-- The exact rational value of the IEEE-754 double `std::f64::consts::PI`
(`0x400921FB54442D18`), i.e. `884279719003555 / 2^48`.  This is the value of
`arc_start_angle` in `Speedo::render` (src/render.rs line 139). -/
def PI64 : ℚ := 884279719003555 / 281474976710656

/-- IEEE-754 double values as used by `Speedo::render`: a rational carrier
extended with the special values the code can produce. -/
inductive F64 where
  | nan : F64
  | inf : F64
  | ninf : F64
  | fin (q : ℚ) : F64
deriving DecidableEq

namespace F64

/-- IEEE addition on the modelled values. -/
def add : F64 → F64 → F64
  | nan, _ => nan
  | _, nan => nan
  | inf, ninf => nan
  | ninf, inf => nan
  | inf, _ => inf
  | _, inf => inf
  | ninf, _ => ninf
  | _, ninf => ninf
  | fin a, fin b => fin (a + b)

/-- IEEE negation. -/
def neg : F64 → F64
  | nan => nan
  | inf => ninf
  | ninf => inf
  | fin a => fin (-a)

/-- IEEE subtraction, `a - b = a + (-b)` (exact on the modelled values). -/
def sub (a b : F64) : F64 := a.add b.neg

/-- IEEE multiplication on the modelled values. -/
def mul : F64 → F64 → F64
  | nan, _ => nan
  | _, nan => nan
  | inf, inf => inf
  | inf, ninf => ninf
  | ninf, inf => ninf
  | ninf, ninf => inf
  | inf, fin b => if b = 0 then nan else if 0 < b then inf else ninf
  | fin a, inf => if a = 0 then nan else if 0 < a then inf else ninf
  | ninf, fin b => if b = 0 then nan else if 0 < b then ninf else inf
  | fin a, ninf => if a = 0 then nan else if 0 < a then ninf else inf
  | fin a, fin b => fin (a * b)

/-- IEEE division on the modelled values.  `0.0 / 0.0 = NaN`,
`x / 0.0 = ±inf` for finite nonzero `x` (the source only ever divides by a
non-negative zero, so the sign convention for the zero divisor is `+0`). -/
def div : F64 → F64 → F64
  | nan, _ => nan
  | _, nan => nan
  | inf, inf => nan
  | inf, ninf => nan
  | ninf, inf => nan
  | ninf, ninf => nan
  | inf, fin b => if 0 ≤ b then inf else ninf
  | ninf, fin b => if 0 ≤ b then ninf else inf
  | fin _, inf => fin 0
  | fin _, ninf => fin 0
  | fin a, fin b =>
      if b = 0 then (if a = 0 then nan else if 0 < a then inf else ninf)
      else fin (a / b)

/-- IEEE floor: identity on the special values, `Int.floor` on finite ones. -/
def floor : F64 → F64
  | nan => nan
  | inf => inf
  | ninf => ninf
  | fin q => fin (⌊q⌋ : ℚ)

/-- `angle.cos()`: NaN on every special value; on finite values the cosine is
abstracted by the parameter `c` (only NaN propagation matters to the claims). -/
def cos (c : ℚ → ℚ) : F64 → F64
  | fin q => fin (c q)
  | _ => nan

/-- `angle.sin()`: NaN on every special value, `s` on finite values. -/
def sin (s : ℚ → ℚ) : F64 → F64
  | fin q => fin (s q)
  | _ => nan

end F64

/-- Truncation toward zero, the rounding of Rust `as` casts from floats. -/
def rat_trunc (q : ℚ) : ℤ := if 0 ≤ q then ⌊q⌋ else ⌈q⌉

/-- Rust saturating float-to-integer `as` cast into the range `[lo, hi]`;
NaN casts to 0. -/
def f64_as_int (lo hi : ℤ) : F64 → ℤ
  | F64.nan => 0
  | F64.inf => hi
  | F64.ninf => lo
  | F64.fin q => max lo (min hi (rat_trunc q))

/-- `f32::round` / `f64::round`: round half away from zero. -/
def rustRound (q : ℚ) : ℤ := if 0 ≤ q then ⌊q + 1 / 2⌋ else ⌈q - 1 / 2⌉

/-! ## Gauge layout (`Speedo::render`, src/render.rs lines 131-235) -/

/-- `WIDTH` (src/main.rs line 18). -/
def WIDTH : ℕ := 400

/-- `arc_center_x = (WIDTH / 2) as f64` (src/render.rs line 136). -/
def arc_center_x : ℚ := 200

/-- `arc_center_y = y + 150.0` (src/render.rs line 137). -/
def arc_center_y (y : ℚ) : ℚ := y + 150

/-- `arc_radius` (src/render.rs line 138). -/
def arc_radius : ℚ := 150

/-- `tick_length` (src/render.rs line 154). -/
def tick_length : ℚ := 20

/-- `label_radius = arc_radius - tick_length - 20.0` (src/render.rs line 176). -/
def label_radius : ℚ := arc_radius - tick_length - 20

/-- `total = self.max - self.min` (src/render.rs line 132). -/
def speedo_total (mn mx : ℚ) : ℚ := mx - mn

/-- `num_ticks = (total / self.step).floor() as i32`
(src/render.rs line 155). -/
def num_ticks (mn mx step : ℚ) : ℤ :=
  f64_as_int (-2147483648) 2147483647
    (((F64.fin (speedo_total mn mx)).div (F64.fin step)).floor)

/-- The indices `i` of the tick loop `for i in 0..=num_ticks`
(src/render.rs line 157). -/
def tick_indices (n : ℤ) : List ℤ :=
  if n < 0 then [] else (List.range (n.toNat + 1)).map Int.ofNat

/-- `angle = arc_start_angle + (arc_end_angle - arc_start_angle) * (i as f64 / num_ticks as f64)`
(src/render.rs lines 158-159), in `f64` arithmetic: `arc_start_angle = PI`,
`arc_end_angle = 0.0`, and `0.0 - PI` is exact. -/
def tick_angle (mn mx step : ℚ) (i : ℤ) : F64 :=
  (F64.fin PI64).add
    ((F64.fin (0 - PI64)).mul
      ((F64.fin (i : ℚ)).div (F64.fin ((num_ticks mn mx step : ℤ) : ℚ))))

/-- `inner_x = arc_center_x + (arc_radius - tick_length) * angle.cos()`
(src/render.rs line 160). -/
def tick_inner_x (c : ℚ → ℚ) (mn mx step : ℚ) (i : ℤ) : F64 :=
  (F64.fin arc_center_x).add
    ((F64.fin (arc_radius - tick_length)).mul ((tick_angle mn mx step i).cos c))

/-- `inner_y = arc_center_y - (arc_radius - tick_length) * angle.sin()`
(src/render.rs line 161). -/
def tick_inner_y (s : ℚ → ℚ) (y mn mx step : ℚ) (i : ℤ) : F64 :=
  (F64.fin (arc_center_y y)).sub
    ((F64.fin (arc_radius - tick_length)).mul ((tick_angle mn mx step i).sin s))

/-- `outer_x = arc_center_x + arc_radius * angle.cos()` (src/render.rs line 162). -/
def tick_outer_x (c : ℚ → ℚ) (mn mx step : ℚ) (i : ℤ) : F64 :=
  (F64.fin arc_center_x).add
    ((F64.fin arc_radius).mul ((tick_angle mn mx step i).cos c))

/-- `outer_y = arc_center_y - arc_radius * angle.sin()` (src/render.rs line 163). -/
def tick_outer_y (s : ℚ → ℚ) (y mn mx step : ℚ) (i : ℤ) : F64 :=
  (F64.fin (arc_center_y y)).sub
    ((F64.fin arc_radius).mul ((tick_angle mn mx step i).sin s))

/-- `label_x = arc_center_x + label_radius * angle.cos()` (src/render.rs line 180). -/
def tick_label_x (c : ℚ → ℚ) (mn mx step : ℚ) (i : ℤ) : F64 :=
  (F64.fin arc_center_x).add
    ((F64.fin label_radius).mul ((tick_angle mn mx step i).cos c))

/-- `label_y = arc_center_y - label_radius * angle.sin()` (src/render.rs line 181). -/
def tick_label_y (s : ℚ → ℚ) (y mn mx step : ℚ) (i : ℤ) : F64 :=
  (F64.fin (arc_center_y y)).sub
    ((F64.fin label_radius).mul ((tick_angle mn mx step i).sin s))

/-- `needle_angle = arc_start_angle + (arc_end_angle - arc_start_angle) * (position as f64 / total)`
(src/render.rs lines 202-203), in the `F64` model.  Note the source divides the
raw `position` by the span, without subtracting `self.min`. -/
def needle_angle_f64 (mn mx pos : ℚ) : F64 :=
  (F64.fin PI64).add
    ((F64.fin (0 - PI64)).mul
      ((F64.fin pos).div (F64.fin (speedo_total mn mx))))

/-- The same needle-angle computation on the exact rational (finite) path,
used for the claims that stay within finite arithmetic. -/
def needle_angle_q (mn mx pos : ℚ) : ℚ :=
  PI64 + (0 - PI64) * (pos / speedo_total mn mx)

/-- `needle_tip_x = arc_center_x + needle_length * needle_angle.cos()`
(src/render.rs line 205), `needle_length = 140.0`. -/
def needle_tip_x (c : ℚ → ℚ) (mn mx pos : ℚ) : F64 :=
  (F64.fin arc_center_x).add
    ((F64.fin 140).mul ((needle_angle_f64 mn mx pos).cos c))

/-- `needle_tip_y = arc_center_y - needle_length * needle_angle.sin()`
(src/render.rs line 206). -/
def needle_tip_y (s : ℚ → ℚ) (y mn mx pos : ℚ) : F64 :=
  (F64.fin (arc_center_y y)).sub
    ((F64.fin 140).mul ((needle_angle_f64 mn mx pos).sin s))

/-- The geometry computed by one `Speedo::render` call. -/
structure SpeedoGeom where
  numTicks : ℤ
  needleAngle : F64
  needleTipX : F64
  needleTipY : F64
deriving DecidableEq

/-- `Speedo::render` (src/render.rs lines 131-235).  The function computes
`total = max - min` and all geometry from it without any validation of the
span; its `Result` return can only carry SDL drawing errors (modelled as
absent), so it returns the computed geometry unconditionally. -/
def speedo_render (c s : ℚ → ℚ) (mn mx step pos y : ℚ) :
    Except String SpeedoGeom :=
  Except.ok
    { numTicks := num_ticks mn mx step
      needleAngle := needle_angle_f64 mn mx pos
      needleTipX := needle_tip_x c mn mx pos
      needleTipY := needle_tip_y s y mn mx pos }

/-! ## Temporal resampling (src/main.rs lines 189-213) -/

/-- `let duration = point.duration.min(args.max_gap_seconds)`
(src/main.rs line 190). -/
def hold_duration (d g : ℚ) : ℚ := min d g

/-- `let num_frames = (duration * args.rate).round() as usize`
(src/main.rs line 191); the `as usize` cast saturates negatives to 0. -/
def num_frames (r g d : ℚ) : ℕ := (rustRound (hold_duration d g * r)).toNat

/-- The continuous raw frame stream written to the encoder: for each sample
(identified by its index) the rendered frame is written `num_frames` times,
in input order (src/main.rs lines 189-213, `for _ in 0..num_frames`). -/
def output_frames (r g : ℚ) (ds : List ℚ) : List ℕ :=
  (ds.enum).flatMap fun p => List.replicate (num_frames r g p.2) p.1

/-! ## Input parsing (src/input.rs) -/

/-- The per-record duration chain of `parse_float_control`
(src/input.rs lines 137-145): each record's duration is
`time_seconds - prev_time`, where the code passes
`data.last().map(|dp| dp.duration).unwrap_or(0.0)` — the PREVIOUS RECORD'S
DURATION, not its timestamp — as `prev_time` (src/input.rs lines 117-119, 143). -/
def fc_durations_aux (prev : ℚ) : List ℚ → List ℚ
  | [] => []
  | t :: ts => (t - prev) :: fc_durations_aux (t - prev) ts

/-- Durations produced by `parse_float_control` from the `Time(s)` column. -/
def fc_durations (ts : List ℚ) : List ℚ := fc_durations_aux 0 ts

/-- Durations produced by `parse_floaty` (src/input.rs lines 214-217, 251-261):
each log's duration is `(timestamp - start_time) as f32 / 1000.0`, elapsed
since the RUN START (timestamps are u64 milliseconds; logs are assumed not to
precede `start_time`, as u64 subtraction would otherwise overflow). -/
def floaty_durations (start : ℕ) (tss : List ℕ) : List ℚ :=
  tss.map fun t => ((t - start : ℕ) : ℚ) / 1000

/-- `has_battery_temps` (src/input.rs lines 146-148):
`data.iter().any(|dp| dp.temp_battery.map_or(false, |temp| temp != 0.0))`. -/
def fc_has_battery_temps (data : List (Option ℚ)) : Bool :=
  data.any fun o => match o with
    | some t => decide (t ≠ 0)
    | none => false

/-- The `temp_battery` fields of `parse_float_control`'s output, from the
`T-Batt` column: `to_data_point` stores `Some(self.temp_battery)` for every
record (src/input.rs line 130); afterwards, if no record's reading is nonzero,
every field is overwritten with `None` (src/input.rs lines 146-153). -/
def fc_battery_temps (temps : List ℚ) : List (Option ℚ) :=
  if fc_has_battery_temps (temps.map some) then temps.map some
  else (temps.map some).map fun _ => none

/-! ## Scene composition -/

/-- The `DataPoint` fields the composers read (src/input.rs lines 8-23). -/
structure DataPointM where
  duration : ℚ
  speed : ℚ
  duty_cycle : ℚ
  motor_current : ℚ
  field_weakening : Option ℚ
  temp_motor : ℚ
  temp_mosfet : ℚ
  temp_battery : Option ℚ
  batt_voltage : ℚ
  batt_current : ℚ
deriving DecidableEq

/-- The datum-row labels of the two composers, each standing for the exact
string literal of the source (`render_svg` in src/svg.rs; `render_frame` in
src/main.rs). -/
inductive RowLabel where
  | motorCurrent
  | fieldWeakening
  | tempMotor
  | tempController
  | tempBattery
  | voltagePerCell
  | voltage
  | battCurrent
  | watts
deriving DecidableEq

/-- The source string of each row label. -/
def RowLabel.text : RowLabel → String
  | motorCurrent => "Current"
  | fieldWeakening => "Field Weakening"
  | tempMotor => "Motor"
  | tempController => "Controller"
  | tempBattery => "Battery"
  | voltagePerCell => "Voltage (per cell)"
  | voltage => "Voltage"
  | battCurrent => "Current"
  | watts => "Watts"

/-- The section titles of `render_svg` (`Item::Title` pushes in src/svg.rs). -/
inductive SectionTitle where
  | motor
  | temperatures
  | battery
deriving DecidableEq

/-- An entry of the `items` vector built by `render_svg` (src/svg.rs):
either an `Item::Title` or an `Item::Datum` carrying the numeric value that
gets formatted into the datum's string. -/
inductive SvgItem where
  | title (t : SectionTitle)
  | datum (l : RowLabel) (v : F64)
deriving DecidableEq

/-- The ordered `items` vector built by `render_svg`
(src/svg.rs lines 83-155): Motor section with a field-weakening row only when
`data_point.field_weakening` is `Some`; Temperatures section with a battery
row only when `data_point.temp_battery` is `Some`; Battery section with a
per-cell-voltage row only when a cell count was supplied. -/
def render_svg_items (dp : DataPointM) (cell_count : Option ℕ) : List SvgItem :=
  [SvgItem.title SectionTitle.motor,
   SvgItem.datum RowLabel.motorCurrent (F64.fin dp.motor_current)]
  ++ (match dp.field_weakening with
      | some fw => [SvgItem.datum RowLabel.fieldWeakening (F64.fin fw)]
      | none => [])
  ++ [SvgItem.title SectionTitle.temperatures,
      SvgItem.datum RowLabel.tempMotor (F64.fin dp.temp_motor),
      SvgItem.datum RowLabel.tempController (F64.fin dp.temp_mosfet)]
  ++ (match dp.temp_battery with
      | some t => [SvgItem.datum RowLabel.tempBattery (F64.fin t)]
      | none => [])
  ++ [SvgItem.title SectionTitle.battery]
  ++ (match cell_count with
      | some n => [SvgItem.datum RowLabel.voltagePerCell
                    (F64.fin (dp.batt_voltage / (n : ℚ)))]
      | none => [])
  ++ [SvgItem.datum RowLabel.voltage (F64.fin dp.batt_voltage),
      SvgItem.datum RowLabel.battCurrent (F64.fin dp.batt_current),
      SvgItem.datum RowLabel.watts
        (F64.fin ((rustRound (dp.batt_voltage * dp.batt_current)).toNat : ℚ))]

/-- Whether the items of a frame contain the battery-temperature row. -/
def has_battery_row (items : List SvgItem) : Bool :=
  items.any fun it => match it with
    | SvgItem.datum RowLabel.tempBattery _ => true
    | _ => false

/-- Whether the items of a frame contain the field-weakening row. -/
def has_fw_row (items : List SvgItem) : Bool :=
  items.any fun it => match it with
    | SvgItem.datum RowLabel.fieldWeakening _ => true
    | _ => false

/-- `unwrap_or(f32::NAN)` on an optional metric (src/main.rs line 67). -/
def f64_of_opt : Option ℚ → F64
  | some q => F64.fin q
  | none => F64.nan

/-- The Motor-section rows built by `render_frame` in the rasterizing backend
(src/main.rs lines 61-73): the field-weakening row is ALWAYS present, its
value `point.field_weakening.unwrap_or(f32::NAN)`. -/
def main_motor_rows (dp : DataPointM) : List (RowLabel × F64) :=
  [(RowLabel.motorCurrent, F64.fin dp.motor_current),
   (RowLabel.fieldWeakening, f64_of_opt dp.field_weakening)]

/-! ## Per-frame error policy (src/main.rs lines 189-219) -/

/-- The frame loop of `main`: for each sample the frame is rendered; a render
error is only reported (`eprintln`) and the loop continues, still writing the
(partially drawn) frame; after the loop `main` returns `Ok(())`.  Returns the
reported error messages, the number of frames processed, and the final status.
-/
def frame_loop : List (Except String Unit) → List String × ℕ × Except String Unit
  | [] => ([], 0, Except.ok ())
  | r :: rs =>
      let rec_result := frame_loop rs
      match r with
      | Except.ok _ => (rec_result.1, rec_result.2.1 + 1, rec_result.2.2)
      | Except.error e => (e :: rec_result.1, rec_result.2.1 + 1, rec_result.2.2)

/-! ## Variable-frame-rate scheduling (modelled from the spec) -/

/-- Modelled from the spec: the variable-frame-rate (image sequence + concat
manifest) pipeline is not present under src/ — `render_svg` (src/svg.rs) has
no caller there, cli.rs always supplies a frame rate (default 30), and
src/main.rs implements only the fixed-rate raw-video stream.  Spec section 4.4:
each frame is emitted once as a `(file, holdDuration)` manifest entry with
`holdDuration = min(sample.duration, maxGapSeconds)`, in original order, and
the very last entry is listed a second time. -/
def vfr_manifest (g : ℚ) (ds : List ℚ) : List (ℕ × ℚ) :=
  let entries := ds.enum.map fun p => (p.1, min p.2 g)
  entries ++ entries.getLast?.toList

/-- Modelled from the spec (section 6, configuration): a present frame rate
selects fixed-rate repetition, an absent one selects variable-frame-rate
scheduling. -/
def schedule (rate : Option ℚ) (g : ℚ) (ds : List ℚ) :
    Sum (List ℕ) (List (ℕ × ℚ)) :=
  match rate with
  | some r => Sum.inl (output_frames r g ds)
  | none => Sum.inr (vfr_manifest g ds)

/-! ## Theorems -/

/-- Helper: on a nonzero span the `F64` needle computation stays finite and
agrees with the exact rational path. -/
theorem needle_angle_f64_fin (mn mx pos : ℚ) (h : speedo_total mn mx ≠ 0) :
    needle_angle_f64 mn mx pos = F64.fin (needle_angle_q mn mx pos) := by
  unfold needle_angle_f64 needle_angle_q
  simp [F64.div, F64.mul, F64.add, h]

/-- Claim C1, counterexample: for the gauge spec `min = 1, max = 3` at value
`v = 2` the code's needle angle (which divides the raw value, not `v - min`,
by the span) is `0`, not the claimed `π - π·(v - min)/(max - min) = π/2`. -/
theorem C1_counterexample :
    needle_angle_q 1 3 2 ≠ PI64 - PI64 * ((2 - 1) / (3 - 1)) := by
  norm_num [needle_angle_q, speedo_total, PI64]

/-- Claim C1 (amended): for every gauge spec with `max > min` the needle angle
equals `π - π·v/(max - min)` — the raw value is divided by the span, `min` is
not subtracted — and in particular for `min = 0, max = 50, v = 25` the needle
angle is exactly `π/2`. -/
theorem C1_needle_formula :
    (∀ mn mx v : ℚ, mn < mx →
      needle_angle_q mn mx v = PI64 - PI64 * (v / (mx - mn))) ∧
    needle_angle_q 0 50 25 = PI64 / 2 := by
  constructor
  · intro mn mx v _
    unfold needle_angle_q speedo_total
    ring
  · unfold needle_angle_q speedo_total
    norm_num
    ring

/-- Witness for C1 at `min = 0, max = 50, v = 25`. -/
theorem C1_needle_formula_witness :
    needle_angle_q 0 50 25 = PI64 - PI64 * (25 / (50 - 0)) :=
  C1_needle_formula.1 0 50 25 (by norm_num)

/-- Claim C5, counterexample: the needle angle is decreasing, not
non-decreasing (at `min = 0, max = 50`, the angle at `v = 50` is below the
angle at `v = 0`), and for `min = 1, max = 3` the angle at `v = min` is
`π/2`, not the claimed `π`. -/
theorem C5_counterexample :
    needle_angle_q 0 50 50 < needle_angle_q 0 50 0 ∧
    needle_angle_q 1 3 1 ≠ PI64 := by
  constructor
  · norm_num [needle_angle_q, speedo_total, PI64]
  · norm_num [needle_angle_q, speedo_total, PI64]

/-- Claim C5 (amended): for every gauge spec with `max > min` the needle angle
is monotone non-increasing in the value; at position `0` it equals `π` and at
position `max - min` it equals `0` (for specs with `min = 0` these are
`v = min` and `v = max`). -/
theorem C5_needle_monotone :
    ∀ mn mx : ℚ, mn < mx →
      (∀ v₁ v₂ : ℚ, v₁ ≤ v₂ →
        needle_angle_q mn mx v₂ ≤ needle_angle_q mn mx v₁) ∧
      needle_angle_q mn mx 0 = PI64 ∧
      needle_angle_q mn mx (mx - mn) = 0 := by
  intro mn mx h
  have ht : (0 : ℚ) < mx - mn := by linarith
  refine ⟨?_, ?_, ?_⟩
  · intro v₁ v₂ hv
    have h1 : v₁ / (mx - mn) ≤ v₂ / (mx - mn) := (div_le_div_iff_of_pos_right ht).mpr hv
    unfold needle_angle_q speedo_total
    unfold PI64 at h1 ⊢
    linarith
  · unfold needle_angle_q speedo_total
    rw [zero_div]
    ring
  · unfold needle_angle_q speedo_total
    rw [div_self (ne_of_gt ht)]
    ring

/-- Witness for C5 at `min = 0, max = 50`. -/
theorem C5_needle_monotone_witness :
    needle_angle_q 0 50 20 ≤ needle_angle_q 0 50 10 ∧
    needle_angle_q 0 50 0 = PI64 ∧ needle_angle_q 0 50 (50 - 0) = 0 :=
  ⟨(C5_needle_monotone 0 50 (by norm_num)).1 10 20 (by norm_num),
   (C5_needle_monotone 0 50 (by norm_num)).2.1,
   (C5_needle_monotone 0 50 (by norm_num)).2.2⟩

/-- Claim C6, counterexample: at the zero-span spec `min = max = 0`
(`step = 10`, value `25`), `Speedo::render` does not fail with a configuration
error — it succeeds, silently dividing the value by the zero span: the needle
angle comes out `-inf` and the needle tip coordinates NaN. -/
theorem C6_counterexample :
    speedo_render (fun _ => 0) (fun _ => 0) 0 0 10 25 20 =
      Except.ok ⟨0, F64.ninf, F64.nan, F64.nan⟩ := by
  have h1 : num_ticks 0 0 10 = 0 := by
    norm_num [num_ticks, speedo_total, F64.div, F64.floor, f64_as_int, rat_trunc]
  have h2 : needle_angle_f64 0 0 25 = F64.ninf := by
    norm_num [needle_angle_f64, speedo_total, F64.div, F64.mul, F64.add, PI64]
  have h3 : needle_tip_x (fun _ => 0) 0 0 25 = F64.nan := by
    unfold needle_tip_x
    rw [h2]
    norm_num [F64.cos, F64.mul, F64.add]
  have h4 : needle_tip_y (fun _ => 0) 20 0 0 25 = F64.nan := by
    unfold needle_tip_y
    rw [h2]
    norm_num [F64.sin, F64.mul, F64.sub, F64.add, F64.neg]
  unfold speedo_render
  rw [h1, h2, h3, h4]

/-- Claim C6 (amended): `Speedo::render` performs no span validation: for
every spec (zero or negative span included) it succeeds, and on a zero span
with a positive value the needle angle is the division-by-zero result `-inf`
rather than any error. -/
theorem C6_no_span_check :
    ∀ (c s : ℚ → ℚ) (mn mx step pos y : ℚ),
      (speedo_render c s mn mx step pos y).isOk = true ∧
      (mx = mn → 0 < pos → needle_angle_f64 mn mx pos = F64.ninf) := by
  intro c s mn mx step pos y
  refine ⟨rfl, ?_⟩
  intro he hp
  have hpos : pos ≠ 0 := ne_of_gt hp
  unfold needle_angle_f64 speedo_total
  rw [he, sub_self]
  norm_num [F64.div, F64.mul, F64.add, hpos, hp, PI64]

/-- Witness for C6 at the zero-span spec `min = max = 7`. -/
theorem C6_no_span_check_witness :
    (speedo_render (fun _ => 0) (fun _ => 0) 7 7 10 25 20).isOk = true ∧
    needle_angle_f64 7 7 25 = F64.ninf :=
  ⟨(C6_no_span_check (fun _ => 0) (fun _ => 0) 7 7 10 25 20).1,
   (C6_no_span_check (fun _ => 0) (fun _ => 0) 7 7 10 25 20).2 rfl (by norm_num)⟩

/-- Claim C10: for every gauge spec with `0 < max - min < step`, the computed
tick count `floor((max - min)/step)` is `0`, the single tick of the loop
`0..=0` has angle `0.0/0.0 = NaN`, all its segment endpoints and its label
position are NaN before the integer casts, and the layout neither rejects nor
guards the case. -/
theorem C10_degenerate_tick_nan :
    ∀ (c s : ℚ → ℚ) (mn mx step pos y : ℚ),
      0 < mx - mn → mx - mn < step →
      num_ticks mn mx step = 0 ∧
      tick_indices (num_ticks mn mx step) = [0] ∧
      tick_angle mn mx step 0 = F64.nan ∧
      tick_inner_x c mn mx step 0 = F64.nan ∧
      tick_inner_y s y mn mx step 0 = F64.nan ∧
      tick_outer_x c mn mx step 0 = F64.nan ∧
      tick_outer_y s y mn mx step 0 = F64.nan ∧
      tick_label_x c mn mx step 0 = F64.nan ∧
      tick_label_y s y mn mx step 0 = F64.nan ∧
      (speedo_render c s mn mx step pos y).isOk = true := by
  intro c s mn mx step pos y h1 h2
  have hstep : (0 : ℚ) < step := lt_trans h1 h2
  have hne : step ≠ 0 := ne_of_gt hstep
  have hfl : ⌊(mx - mn) / step⌋ = 0 :=
    Int.floor_eq_zero_iff.mpr ⟨le_of_lt (div_pos h1 hstep), (div_lt_one hstep).mpr h2⟩
  have hnt : num_ticks mn mx step = 0 := by
    unfold num_ticks speedo_total
    norm_num [F64.div, F64.floor, f64_as_int, hne, hfl, rat_trunc]
  have hang : tick_angle mn mx step 0 = F64.nan := by
    unfold tick_angle
    rw [hnt]
    norm_num [F64.div, F64.mul, F64.add]
  refine ⟨hnt, ?_, hang, ?_, ?_, ?_, ?_, ?_, ?_, rfl⟩
  · rw [hnt]; decide
  · unfold tick_inner_x
    rw [hang]
    norm_num [F64.cos, F64.mul, F64.add]
  · unfold tick_inner_y
    rw [hang]
    norm_num [F64.sin, F64.mul, F64.sub, F64.add, F64.neg]
  · unfold tick_outer_x
    rw [hang]
    norm_num [F64.cos, F64.mul, F64.add]
  · unfold tick_outer_y
    rw [hang]
    norm_num [F64.sin, F64.mul, F64.sub, F64.add, F64.neg]
  · unfold tick_label_x
    rw [hang]
    norm_num [F64.cos, F64.mul, F64.add]
  · unfold tick_label_y
    rw [hang]
    norm_num [F64.sin, F64.mul, F64.sub, F64.add, F64.neg]

/-- Witness for C10 at `min = 0, max = 5, step = 10`. -/
theorem C10_degenerate_tick_nan_witness :
    num_ticks 0 5 10 = 0 ∧ tick_angle 0 5 10 0 = F64.nan :=
  ⟨(C10_degenerate_tick_nan (fun _ => 0) (fun _ => 0) 0 5 10 3 20
      (by norm_num) (by norm_num)).1,
   (C10_degenerate_tick_nan (fun _ => 0) (fun _ => 0) 0 5 10 3 20
      (by norm_num) (by norm_num)).2.2.1⟩

/-- Helper: a frame index below the first index of an `enumFrom` block never
occurs in the emitted stream. -/
theorem count_enumFrom_replicate_lt (m : ℚ → ℕ) :
    ∀ (ds : List ℚ) (k j : ℕ), j < k →
      ((List.enumFrom k ds).flatMap fun p => List.replicate (m p.2) p.1).count j = 0
  | [], _, _, _ => rfl
  | d :: ds, k, j, h => by
      simp only [List.enumFrom_cons, List.flatMap_cons, List.count_append]
      rw [List.count_replicate]
      have hne : (k == j) = false := by
        simp only [beq_eq_false_iff_ne, ne_eq]
        omega
      rw [hne, if_neg (by simp)]
      simpa using count_enumFrom_replicate_lt m ds (k + 1) j (Nat.lt_succ_of_lt h)

/-- Helper: in the stream emitted from an `enumFrom` block, frame index
`k + i` occurs exactly as many times as the repeat count of sample `i`. -/
theorem count_enumFrom_replicate (m : ℚ → ℕ) :
    ∀ (ds : List ℚ) (k i : ℕ) (h : i < ds.length),
      ((List.enumFrom k ds).flatMap fun p => List.replicate (m p.2) p.1).count (k + i)
        = m ds[i]
  | [], _, i, h => absurd h (by simp)
  | d :: ds, k, 0, _ => by
      simp only [List.enumFrom_cons, List.flatMap_cons, List.count_append,
        Nat.add_zero, List.getElem_cons_zero]
      rw [List.count_replicate, if_pos (by simp)]
      rw [count_enumFrom_replicate_lt m ds (k + 1) k (Nat.lt_succ_self k)]
      omega
  | d :: ds, k, i + 1, h => by
      simp only [List.enumFrom_cons, List.flatMap_cons, List.count_append,
        List.getElem_cons_succ]
      rw [List.count_replicate]
      have hne : (k == k + (i + 1)) = false := by
        simp only [beq_eq_false_iff_ne, ne_eq]
        omega
      rw [hne, if_neg (by simp)]
      have hrec := count_enumFrom_replicate m ds (k + 1) i
        (by simpa using Nat.lt_of_succ_lt_succ h)
      have heq : k + (i + 1) = k + 1 + i := by omega
      rw [heq, hrec]
      omega

/-- Claim C2: the fixed-rate scheduler caps each sample's duration at
`maxGapSeconds`, writes its frame `round(holdDuration * rate)` times into the
output stream (`num_frames` applies the saturating `as usize` cast of the
source), for durations `[0, 1.5, 0.2]` with `maxGap = 2`, `rate = 30` the
repeat counts are `[0, 45, 6]`, and a sample whose count rounds to `0`
contributes no frames. -/
theorem C2_fixed_rate_schedule :
    (∀ (r g : ℚ) (ds : List ℚ) (i : ℕ), (h : i < ds.length) →
      (output_frames r g ds).count i = num_frames r g ds[i]) ∧
    List.map (num_frames 30 2) [0, 3/2, 1/5] = [0, 45, 6] ∧
    (∀ (r g : ℚ) (ds : List ℚ) (i : ℕ), (h : i < ds.length) →
      num_frames r g ds[i] = 0 → i ∉ output_frames r g ds) := by
  have hcount : ∀ (r g : ℚ) (ds : List ℚ) (i : ℕ), (h : i < ds.length) →
      (output_frames r g ds).count i = num_frames r g ds[i] := by
    intro r g ds i h
    have := count_enumFrom_replicate (fun d => num_frames r g d) ds 0 i h
    simpa [output_frames, List.enum] using this
  refine ⟨hcount, ?_, ?_⟩
  · simp only [List.map_cons, List.map_nil]
    norm_num [num_frames, hold_duration, rustRound, min_def]
    decide
  · intro r g ds i h h0
    have := hcount r g ds i h
    rw [h0] at this
    exact List.count_eq_zero.mp this

/-- Witness for C2 at durations `[0, 3/2, 1/5]`, `maxGap = 2`, `rate = 30`,
sample index 1. -/
theorem C2_fixed_rate_schedule_witness :
    (output_frames 30 2 [0, 3/2, 1/5]).count 1 = num_frames 30 2 (3/2) :=
  C2_fixed_rate_schedule.1 30 2 [0, 3/2, 1/5] 1 (by norm_num)

/-- Claim C3 (code bug), evaluation at the failing inputs: for Float Control
timestamps `[0, 1, 2, 4]` the parser emits durations `[0, 1, 1, 3]` (the last
sample's gap is `4 - 2 = 2`, but the code subtracts the previous DURATION,
giving 3); for a first timestamp of `5` the first duration is `5`, not `0`;
and the Floaty parser emits time since run start, `[0, 1, 2]` for timestamps
`[1000, 2000, 3000]` with start `1000`, where gaps since the previous sample
are `[0, 1, 1]`. -/
theorem C3_duration_eval :
    fc_durations [0, 1, 2, 4] = [0, 1, 1, 3] ∧
    fc_durations [5, 6] = [5, 1] ∧
    floaty_durations 1000 [1000, 2000, 3000] = [0, 1, 2] := by
  refine ⟨?_, ?_, ?_⟩
  · norm_num [fc_durations, fc_durations_aux]
  · norm_num [fc_durations, fc_durations_aux]
  · norm_num [floaty_durations]

/-- Claim C7 (modelled from the spec): with no frame rate configured the
scheduler produces the variable-frame-rate manifest — every sample once, in
order, tagged with its capped hold duration, the final entry duplicated — so
2 samples yield exactly 3 file/duration pairs, and in general a non-empty
input of n samples yields n + 1 pairs. -/
theorem C7_vfr_schedule :
    (∀ (g d₁ d₂ : ℚ), schedule none g [d₁, d₂] =
      Sum.inr [(0, min d₁ g), (1, min d₂ g), (1, min d₂ g)]) ∧
    (∀ (g : ℚ) (ds : List ℚ), ds ≠ [] →
      (vfr_manifest g ds).length = ds.length + 1) := by
  constructor
  · intro g d₁ d₂
    rfl
  · intro g ds h
    have hne : (List.map (fun p => (p.1, min p.2 g)) ds.enum) ≠ [] := by
      cases ds with
      | nil => exact absurd rfl h
      | cons d tl => simp [List.enum_cons]
    rcases hx : (List.map (fun p => (p.1, min p.2 g)) ds.enum).getLast? with _ | e
    · rw [List.getLast?_eq_none_iff] at hx
      exact absurd hx hne
    · unfold vfr_manifest
      simp only [hx, Option.toList_some, List.length_append, List.length_map,
        List.length_singleton]
      have : ds.enum.length = ds.length := List.enumFrom_length
      rw [this]

/-- Witness for C7 with durations `[1, 3]`, `maxGap = 2`. -/
theorem C7_vfr_schedule_witness :
    (vfr_manifest 2 [1, 3]).length = ([1, 3] : List ℚ).length + 1 :=
  C7_vfr_schedule.2 2 [1, 3] (by simp)

/-- Helper: `render_svg` includes the battery-temperature row exactly when the
data point's `temp_battery` is `Some`. -/
theorem has_battery_row_render_svg (dp : DataPointM) (cc : Option ℕ) :
    has_battery_row (render_svg_items dp cc) = dp.temp_battery.isSome := by
  obtain ⟨du, sp, dc, mc, fwo, tm, tmo, tb, bv, bc⟩ := dp
  rcases fwo with _ | fw <;> rcases tb with _ | t <;> rcases cc with _ | n <;>
    simp [render_svg_items, has_battery_row]

/-- Helper: the battery-temperature post-processing of `parse_float_control`
preserves the number of samples. -/
theorem fc_battery_temps_length (temps : List ℚ) :
    (fc_battery_temps temps).length = temps.length := by
  unfold fc_battery_temps
  split <;> simp

/-- Claim C4: the battery-temperature row appears in a frame iff some sample
of the whole dataset has a nonzero battery temperature: with all-zero
readings every frame's row is suppressed, with at least one nonzero reading
the row is present in every frame (also in frames whose own reading is 0). -/
theorem C4_battery_row_gating :
    ∀ (dp : DataPointM) (cc : Option ℕ) (temps : List ℚ),
      ∀ tb ∈ fc_battery_temps temps,
        (has_battery_row (render_svg_items { dp with temp_battery := tb } cc) = true
          ↔ ∃ t ∈ temps, t ≠ 0) := by
  intro dp cc temps tb htb
  rw [has_battery_row_render_svg]
  show tb.isSome = true ↔ _
  unfold fc_battery_temps at htb
  by_cases hb : fc_has_battery_temps (temps.map some) = true
  · rw [if_pos hb] at htb
    obtain ⟨t, _, rfl⟩ := List.mem_map.mp htb
    simp only [Option.isSome_some, true_iff]
    unfold fc_has_battery_temps at hb
    simpa [List.any_map, List.any_eq_true, Function.comp] using hb
  · rw [if_neg hb] at htb
    obtain ⟨a, _, heq⟩ := List.mem_map.mp htb
    subst heq
    simp only [Option.isSome_none, Bool.false_eq_true, false_iff]
    rintro ⟨t, ht, hne⟩
    apply hb
    unfold fc_has_battery_temps
    simp only [List.any_eq_true]
    exact ⟨some t, List.mem_map_of_mem some ht, by simpa using hne⟩

/-- Witness for C4: dataset `[0, 3]` has a nonzero reading, so the frame of
the sample whose own reading is `0` still shows the row. -/
theorem C4_battery_row_gating_witness :
    some (0 : ℚ) ∈ fc_battery_temps [0, 3] ∧
    (has_battery_row (render_svg_items
        ⟨0, 10, 50, 30, none, 40, 35, some 0, 84, 12⟩ none) = true
      ↔ ∃ t ∈ ([0, 3] : List ℚ), t ≠ 0) :=
  ⟨by norm_num [fc_battery_temps, fc_has_battery_temps],
   C4_battery_row_gating ⟨0, 10, 50, 30, none, 40, 35, none, 84, 12⟩ none [0, 3]
     (some 0) (by norm_num [fc_battery_temps, fc_has_battery_temps])⟩

/-- Claim C8, counterexample: the rasterizing composer (`render_frame`,
src/main.rs) renders the field-weakening row even for a sample that carries
no field-weakening value, with the placeholder value `f32::NAN`. -/
theorem C8_counterexample :
    (⟨0, 10, 50, 30, none, 40, 35, none, 84, 12⟩ : DataPointM).field_weakening
        = none ∧
    (RowLabel.fieldWeakening, F64.nan) ∈
      main_motor_rows ⟨0, 10, 50, 30, none, 40, 35, none, 84, 12⟩ := by
  constructor
  · rfl
  · simp [main_motor_rows, f64_of_opt]

/-- Claim C8 (amended): in the SVG composer the field-weakening row is
included iff the sample carries the value; in the rasterizing composer the
row is always rendered, with `NaN` as its value when the sample carries
none. -/
theorem C8_fw_row_policy :
    ∀ (dp : DataPointM) (cc : Option ℕ),
      has_fw_row (render_svg_items dp cc) = dp.field_weakening.isSome ∧
      (RowLabel.fieldWeakening, f64_of_opt dp.field_weakening) ∈ main_motor_rows dp ∧
      (dp.field_weakening = none →
        (RowLabel.fieldWeakening, F64.nan) ∈ main_motor_rows dp) := by
  intro dp cc
  obtain ⟨du, sp, dc, mc, fwo, tm, tmo, tb, bv, bc⟩ := dp
  refine ⟨?_, ?_, ?_⟩
  · rcases fwo with _ | fw <;> rcases tb with _ | t <;> rcases cc with _ | n <;>
      simp [render_svg_items, has_fw_row]
  · simp [main_motor_rows]
  · intro hn
    simp only at hn
    subst hn
    simp [main_motor_rows, f64_of_opt]

/-- Witness for C8 at a sample without a field-weakening value. -/
theorem C8_fw_row_policy_witness :
    has_fw_row (render_svg_items
      ⟨0, 11, 50, 30, none, 40, 35, none, 84, 12⟩ none) = false ∧
    (RowLabel.fieldWeakening, F64.nan) ∈
      main_motor_rows ⟨0, 11, 50, 30, none, 40, 35, none, 84, 12⟩ :=
  ⟨(C8_fw_row_policy ⟨0, 11, 50, 30, none, 40, 35, none, 84, 12⟩ none).1,
   (C8_fw_row_policy ⟨0, 11, 50, 30, none, 40, 35, none, 84, 12⟩ none).2.2 rfl⟩

/-- Claim C9, counterexample: a run whose first frame's render fails still
finishes with status `Ok(())` — the process exit does NOT reflect the frame
failure (the error is only reported and both samples are still processed). -/
theorem C9_counterexample :
    frame_loop [Except.error "boom", Except.ok ()] =
      (["boom"], 2, Except.ok ()) := rfl

/-- Claim C9 (amended): a frame's render failure is reported (its message is
collected, in order) and the run proceeds — every sample is still processed —
but the final status is unconditionally `Ok(())`: the process exit status
does not reflect whether any frame failed. -/
theorem C9_error_policy :
    ∀ rs : List (Except String Unit),
      (frame_loop rs).1 = rs.filterMap (fun r => match r with
        | Except.error e => some e
        | Except.ok _ => none) ∧
      (frame_loop rs).2.1 = rs.length ∧
      (frame_loop rs).2.2 = Except.ok () := by
  intro rs
  induction rs with
  | nil => exact ⟨rfl, rfl, rfl⟩
  | cons r tl ih =>
      cases r with
      | error e =>
          refine ⟨?_, ?_, ?_⟩ <;>
            simp [frame_loop, List.filterMap_cons, ih.1, ih.2.1, ih.2.2]
      | ok u =>
          refine ⟨?_, ?_, ?_⟩ <;>
            simp [frame_loop, List.filterMap_cons, ih.1, ih.2.1, ih.2.2]
